import Mathlib

/-!
Shallow embedding of the synthesizer oscillator core, `src/oscillator/mod.rs`:
the generic `Oscillator<W, A, F, FW>` composite over four capability traits,
its constructor `new`, the three field-replacing builder methods, and the two
per-sample operations `amp_at` and `next_phase`.

Modelling conventions.  The `f64` and `f32` machine floats of the source are
modelled as real numbers.  A Rust `&mut f64` out-parameter (the caller-owned
warp-phase accumulator of `next_phase`) is modelled by the function returning
the updated value alongside its result, so `next_phase` here returns the pair
(next phase, updated warp phase).  The Rust traits `Waveform`, `Amplitude`,
`Frequency`, `FreqWarp` (declared in the sibling modules, with the method
signatures tabulated in the design document) become Lean type classes with one
function per trait method.  The builder methods are named `with_waveform`,
`with_amplitude`, `with_frequency` (as in the design document) because the
source names `waveform` / `amplitude` / `frequency` collide with the structure
field projections in Lean.
-/

namespace Synth

noncomputable section

/-- Waveform capability trait: `amp_at_phase` maps a cycle phase to an
amplitude multiplier, `process_hz` pre-processes the base frequency. -/
class Waveform (W : Type) where
  amp_at_phase : W → ℝ → ℝ
  process_hz : W → ℝ → ℝ

/-- Amplitude capability trait: `amp_at_playhead` is the volume-envelope
lookup at a normalized playhead position. -/
class Amplitude (A : Type) where
  amp_at_playhead : A → ℝ → ℝ

/-- Frequency capability trait: `hz_at_playhead` is the pitch-envelope
lookup at a normalized playhead position. -/
class Frequency (F : Type) where
  hz_at_playhead : F → ℝ → ℝ

/-- FreqWarp capability trait: `step_phase sample_hz warp_phase` advances the
caller-owned warp accumulator by one sample tick (the Rust `&mut f64` is
modelled by returning the new value), `warp_hz hz warp_phase` perturbs the
frequency using the current accumulator value. -/
class FreqWarp (FW : Type) where
  step_phase : FW → ℝ → ℝ → ℝ
  warp_hz : FW → ℝ → ℝ → ℝ

/-- The fundamental component of a synthesizer: one instance of each
capability plus a mute flag (`struct Oscillator<W, A, F, FW>`). -/
structure Oscillator (W A F FW : Type) where
  waveform : W
  amplitude : A
  frequency : F
  freq_warp : FW
  is_muted : Bool

variable {W A F FW WNew ANew FNew W2 A2 F2 : Type}

/-- Oscillator constructor (`Oscillator::new`). -/
def Oscillator.new (waveform : W) (amplitude : A) (frequency : F) (freq_warp : FW) :
    Oscillator W A F FW :=
  { waveform := waveform
    amplitude := amplitude
    frequency := frequency
    freq_warp := freq_warp
    is_muted := false }

/-- Waveform builder method (named `waveform` in the source). -/
def Oscillator.with_waveform (osc : Oscillator W A F FW) (waveform : WNew) :
    Oscillator WNew A F FW :=
  { waveform := waveform
    amplitude := osc.amplitude
    frequency := osc.frequency
    freq_warp := osc.freq_warp
    is_muted := osc.is_muted }

/-- Amplitude envelope builder method (named `amplitude` in the source). -/
def Oscillator.with_amplitude (osc : Oscillator W A F FW) (amplitude : ANew) :
    Oscillator W ANew F FW :=
  { waveform := osc.waveform
    amplitude := amplitude
    frequency := osc.frequency
    freq_warp := osc.freq_warp
    is_muted := osc.is_muted }

/-- Frequency envelope builder method (named `frequency` in the source). -/
def Oscillator.with_frequency (osc : Oscillator W A F FW) (frequency : FNew) :
    Oscillator W A FNew FW :=
  { waveform := osc.waveform
    amplitude := osc.amplitude
    frequency := frequency
    freq_warp := osc.freq_warp
    is_muted := osc.is_muted }

/-- Calculate and return the amplitude at the given ratio
(`Oscillator::amp_at`). -/
def Oscillator.amp_at [Waveform W] [Amplitude A] (osc : Oscillator W A F FW)
    (phase playhead_perc : ℝ) : ℝ :=
  Waveform.amp_at_phase osc.waveform phase *
    Amplitude.amp_at_playhead osc.amplitude playhead_perc

/-- Calculate and return the phase that should follow some given phase
(`Oscillator::next_phase`).  The `&mut f64` warp-phase out-parameter is
returned as the second component of the result pair. -/
def Oscillator.next_phase [Waveform W] [Frequency F] [FreqWarp FW]
    (osc : Oscillator W A F FW)
    (phase playhead_perc note_freq_multi sample_hz freq_warp_phase : ℝ) : ℝ × ℝ :=
  let hz := Frequency.hz_at_playhead osc.frequency playhead_perc
  let hz := Waveform.process_hz osc.waveform hz
  let freq_warp_phase := FreqWarp.step_phase osc.freq_warp sample_hz freq_warp_phase
  let warped_hz := FreqWarp.warp_hz osc.freq_warp hz freq_warp_phase
  let note_hz := warped_hz * note_freq_multi
  (phase + note_hz / sample_hz, freq_warp_phase)

/-- The per-voice state a render loop owns when driving `next_phase`: a
(shared, immutable) oscillator configuration together with the caller-owned
warp-phase accumulator.  A call to the Rust method `next_phase` reads the
oscillator through `&self` and mutates only the accumulator; the call is
embedded as a function from this state to (new state, returned phase). -/
structure VoiceState (W A F FW : Type) where
  osc : Oscillator W A F FW
  warp_phase : ℝ

/-- One call of `next_phase` as a transition on the caller-visible state:
the oscillator is read through `&self` (no mutable access), the warp-phase
accumulator is passed by mutable reference. -/
def next_phase_call [Waveform W] [Frequency F] [FreqWarp FW]
    (s : VoiceState W A F FW) (phase playhead_perc note_freq_multi sample_hz : ℝ) :
    VoiceState W A F FW × ℝ :=
  let r := s.osc.next_phase phase playhead_perc note_freq_multi sample_hz s.warp_phase
  ({ osc := s.osc, warp_phase := r.2 }, r.1)

/-- Iterate `next_phase` a number of times from an initial (phase, warp-phase)
pair, with the playhead, note multiplier and sample rate held fixed, threading
the warp accumulator through the calls as the Rust caller would. -/
def iterate_next_phase [Waveform W] [Frequency F] [FreqWarp FW]
    (osc : Oscillator W A F FW) (playhead_perc note_freq_multi sample_hz : ℝ) :
    ℕ → ℝ × ℝ → ℝ × ℝ
  | 0, s => s
  | n + 1, s =>
      let s' := iterate_next_phase osc playhead_perc note_freq_multi sample_hz n s
      osc.next_phase s'.1 playhead_perc note_freq_multi sample_hz s'.2

/-- Concrete waveform fixture: identity `process_hz`, amplitude equal to the
phase itself; used to instantiate universally quantified theorems. -/
structure PlainWave

instance : Waveform PlainWave where
  amp_at_phase _ phase := phase
  process_hz _ hz := hz

/-- Concrete sine waveform fixture: `amp_at_phase phase = sin (2π·phase)`,
identity `process_hz`. -/
structure SineWave

instance : Waveform SineWave where
  amp_at_phase _ phase := Real.sin (2 * Real.pi * phase)
  process_hz _ hz := hz

/-- Concrete amplitude fixture: a flat volume envelope at a fixed level. -/
structure FlatAmp where
  level : ℝ

instance : Amplitude FlatAmp where
  amp_at_playhead a _ := a.level

/-- Concrete frequency fixture: a flat pitch envelope at a fixed frequency. -/
structure ConstFreq where
  hz : ℝ

instance : Frequency ConstFreq where
  hz_at_playhead f _ := f.hz

/-- Concrete warp fixture: the accumulator advances by `rate / sample_hz`
per tick and the frequency is left unwarped (`warp_hz` is the identity on
its frequency argument). -/
structure TickWarp where
  rate : ℝ

instance : FreqWarp TickWarp where
  step_phase fw sample_hz warp_phase := warp_phase + fw.rate / sample_hz
  warp_hz _ hz _ := hz

/-- Claim C1: `next_phase` computes, in order, the pitch-envelope lookup, the
waveform's frequency pre-processing, the warp-accumulator step, the frequency
warp using the just-updated (post-step) accumulator, the multiplication by
`note_freq_multi`, and returns `phase + note_hz / sample_hz` exactly, with no
wraparound or modulo applied; the updated accumulator is the stepped value. -/
theorem next_phase_computation [Waveform W] [Frequency F] [FreqWarp FW]
    (osc : Oscillator W A F FW)
    (phase playhead_perc note_freq_multi sample_hz warp_phase : ℝ) :
    osc.next_phase phase playhead_perc note_freq_multi sample_hz warp_phase =
      (phase +
        FreqWarp.warp_hz osc.freq_warp
            (Waveform.process_hz osc.waveform
              (Frequency.hz_at_playhead osc.frequency playhead_perc))
            (FreqWarp.step_phase osc.freq_warp sample_hz warp_phase) *
          note_freq_multi / sample_hz,
       FreqWarp.step_phase osc.freq_warp sample_hz warp_phase) :=
  rfl

/-- Claim C2: a call of `next_phase` leaves all five fields of the oscillator
unchanged, and its only effect on caller-visible state is to replace the warp
accumulator with the result of exactly one `step_phase` application. -/
theorem next_phase_frame [Waveform W] [Frequency F] [FreqWarp FW]
    (s : VoiceState W A F FW) (phase playhead_perc note_freq_multi sample_hz : ℝ) :
    (next_phase_call s phase playhead_perc note_freq_multi sample_hz).1.osc.waveform =
        s.osc.waveform ∧
    (next_phase_call s phase playhead_perc note_freq_multi sample_hz).1.osc.amplitude =
        s.osc.amplitude ∧
    (next_phase_call s phase playhead_perc note_freq_multi sample_hz).1.osc.frequency =
        s.osc.frequency ∧
    (next_phase_call s phase playhead_perc note_freq_multi sample_hz).1.osc.freq_warp =
        s.osc.freq_warp ∧
    (next_phase_call s phase playhead_perc note_freq_multi sample_hz).1.osc.is_muted =
        s.osc.is_muted ∧
    (next_phase_call s phase playhead_perc note_freq_multi sample_hz).1.warp_phase =
        FreqWarp.step_phase s.osc.freq_warp sample_hz s.warp_phase :=
  ⟨rfl, rfl, rfl, rfl, rfl, rfl⟩

/-- Claim C3: if the pitch envelope is constant at `hz`, `process_hz` and
`warp_hz` are identities, and `note_freq_multi = 1`, then iterating
`next_phase` `N` times from `phase0` at a fixed `sample_hz` yields
`phase0 + N * hz / sample_hz`. -/
theorem phase_accumulation [Waveform W] [Frequency F] [FreqWarp FW]
    (osc : Oscillator W A F FW) (hz playhead_perc sample_hz phase0 warp0 : ℝ)
    (hfreq : ∀ p, Frequency.hz_at_playhead osc.frequency p = hz)
    (hproc : ∀ x, Waveform.process_hz osc.waveform x = x)
    (hwarp : ∀ x p, FreqWarp.warp_hz osc.freq_warp x p = x)
    (N : ℕ) :
    (iterate_next_phase osc playhead_perc 1 sample_hz N (phase0, warp0)).1 =
      phase0 + (N : ℝ) * hz / sample_hz := by
  induction N with
  | zero => simp [iterate_next_phase]
  | succ n ih =>
      simp only [iterate_next_phase, Oscillator.next_phase, hfreq, hproc, hwarp, ih]
      push_cast
      ring

/-- Witness for C3: a concrete oscillator with a flat pitch envelope at 2 Hz,
identity `process_hz` and identity `warp_hz`, iterated 3 times from phase 0
at sample rate 1, reaches phase `0 + 3 * 2 / 1`. -/
theorem phase_accumulation_witness :
    (∀ p, Frequency.hz_at_playhead
        (Oscillator.new PlainWave.mk (FlatAmp.mk 1) (ConstFreq.mk 2)
          (TickWarp.mk 1)).frequency p = 2) ∧
    (iterate_next_phase
        (Oscillator.new PlainWave.mk (FlatAmp.mk 1) (ConstFreq.mk 2) (TickWarp.mk 1))
        0 1 1 3 (0, 0)).1 = 0 + ((3 : ℕ) : ℝ) * 2 / 1 :=
  ⟨fun _ => rfl,
    phase_accumulation
      (Oscillator.new PlainWave.mk (FlatAmp.mk 1) (ConstFreq.mk 2) (TickWarp.mk 1))
      2 0 1 0 0 (fun _ => rfl) (fun _ => rfl) (fun _ _ => rfl) 3⟩

/-- Claim C4: each of the three builder methods replaces exactly its own
capability slot with the given value and leaves the other three capabilities
and the mute flag unchanged. -/
theorem builders_replace_exactly_one_slot (osc : Oscillator W A F FW)
    (w : WNew) (a : ANew) (f : FNew) :
    (osc.with_waveform w).waveform = w ∧
    (osc.with_waveform w).amplitude = osc.amplitude ∧
    (osc.with_waveform w).frequency = osc.frequency ∧
    (osc.with_waveform w).freq_warp = osc.freq_warp ∧
    (osc.with_waveform w).is_muted = osc.is_muted ∧
    (osc.with_amplitude a).waveform = osc.waveform ∧
    (osc.with_amplitude a).amplitude = a ∧
    (osc.with_amplitude a).frequency = osc.frequency ∧
    (osc.with_amplitude a).freq_warp = osc.freq_warp ∧
    (osc.with_amplitude a).is_muted = osc.is_muted ∧
    (osc.with_frequency f).waveform = osc.waveform ∧
    (osc.with_frequency f).amplitude = osc.amplitude ∧
    (osc.with_frequency f).frequency = f ∧
    (osc.with_frequency f).freq_warp = osc.freq_warp ∧
    (osc.with_frequency f).is_muted = osc.is_muted :=
  ⟨rfl, rfl, rfl, rfl, rfl, rfl, rfl, rfl, rfl, rfl, rfl, rfl, rfl, rfl, rfl⟩

/-- Claim C5: `amp_at` returns exactly the waveform's amplitude-at-phase
value multiplied by the amplitude envelope's amplitude-at-playhead value; as
a pure function of the oscillator and its two inputs it trivially returns
identical outputs for identical inputs across repeated calls. -/
theorem amp_at_product [Waveform W] [Amplitude A] (osc : Oscillator W A F FW)
    (phase playhead_perc : ℝ) :
    osc.amp_at phase playhead_perc =
      Waveform.amp_at_phase osc.waveform phase *
        Amplitude.amp_at_playhead osc.amplitude playhead_perc :=
  rfl

/-- Claim C6: the core's own operations ignore `is_muted` — flipping only the
mute flag changes neither `amp_at` nor `next_phase` (result and final warp
phase alike) on any input. -/
theorem is_muted_ignored [Waveform W] [Amplitude A] [Frequency F] [FreqWarp FW]
    (osc : Oscillator W A F FW) (b : Bool)
    (phase playhead_perc note_freq_multi sample_hz warp_phase : ℝ) :
    (Oscillator.mk osc.waveform osc.amplitude osc.frequency osc.freq_warp b).amp_at
        phase playhead_perc = osc.amp_at phase playhead_perc ∧
    (Oscillator.mk osc.waveform osc.amplitude osc.frequency osc.freq_warp b).next_phase
        phase playhead_perc note_freq_multi sample_hz warp_phase =
      osc.next_phase phase playhead_perc note_freq_multi sample_hz warp_phase :=
  ⟨rfl, rfl⟩

/-- Claim C7: `new waveform amplitude frequency freq_warp` stores exactly the
four given capability values and sets `is_muted` to `false`, with no
validation of the capability values. -/
theorem new_fields (w : W) (a : A) (f : F) (fw : FW) :
    (Oscillator.new w a f fw).waveform = w ∧
    (Oscillator.new w a f fw).amplitude = a ∧
    (Oscillator.new w a f fw).frequency = f ∧
    (Oscillator.new w a f fw).freq_warp = fw ∧
    (Oscillator.new w a f fw).is_muted = false :=
  ⟨rfl, rfl, rfl, rfl, rfl⟩

/-- Claim C8: for an oscillator whose waveform computes
`amp_at_phase phase = sin (2π·phase)` and whose amplitude envelope returns 1
at playhead 0.5, `amp_at 0.25 0.5` equals exactly 1 (that is,
`sin (π/2) * 1`). -/
theorem amp_at_sine_scenario [Waveform W] [Amplitude A] (osc : Oscillator W A F FW)
    (hw : ∀ p, Waveform.amp_at_phase osc.waveform p = Real.sin (2 * Real.pi * p))
    (ha : Amplitude.amp_at_playhead osc.amplitude 0.5 = 1) :
    osc.amp_at 0.25 0.5 = 1 := by
  have h1 : (2 : ℝ) * Real.pi * 0.25 = Real.pi / 2 := by
    norm_num
    ring
  simp only [Oscillator.amp_at, hw, ha, mul_one, h1, Real.sin_pi_div_two]

/-- Witness for C8: the concrete sine waveform paired with a flat amplitude
envelope at level 1 satisfies the hypotheses, and its `amp_at 0.25 0.5`
is 1. -/
theorem amp_at_sine_scenario_witness :
    (∀ p, Waveform.amp_at_phase
        (Oscillator.new SineWave.mk (FlatAmp.mk 1) (ConstFreq.mk 440)
          (TickWarp.mk 0)).waveform p = Real.sin (2 * Real.pi * p)) ∧
    (Oscillator.new SineWave.mk (FlatAmp.mk 1) (ConstFreq.mk 440)
        (TickWarp.mk 0)).amp_at 0.25 0.5 = 1 :=
  ⟨fun _ => rfl,
    amp_at_sine_scenario
      (Oscillator.new SineWave.mk (FlatAmp.mk 1) (ConstFreq.mk 440) (TickWarp.mk 0))
      (fun _ => rfl) rfl⟩

/-- Claim C9: capability-slot noninterference — two oscillators (of the same
capability types) agreeing on `waveform` and `amplitude` give the same
`amp_at` on all inputs whatever their `frequency` and `freq_warp` (and mute
flag) hold, and two agreeing on `waveform`, `frequency` and `freq_warp` give
the same `next_phase` result and final warp phase whatever their `amplitude`
(and mute flag) hold. -/
theorem capability_noninterference [Waveform W] [Amplitude A] [Frequency F] [FreqWarp FW]
    (osc1 osc2 : Oscillator W A F FW)
    (phase playhead_perc note_freq_multi sample_hz warp_phase : ℝ) :
    (osc1.waveform = osc2.waveform → osc1.amplitude = osc2.amplitude →
      osc1.amp_at phase playhead_perc = osc2.amp_at phase playhead_perc) ∧
    (osc1.waveform = osc2.waveform → osc1.frequency = osc2.frequency →
      osc1.freq_warp = osc2.freq_warp →
      osc1.next_phase phase playhead_perc note_freq_multi sample_hz warp_phase =
        osc2.next_phase phase playhead_perc note_freq_multi sample_hz warp_phase) := by
  constructor
  · intro hw ha
    simp only [Oscillator.amp_at, hw, ha]
  · intro hw hf hfw
    simp only [Oscillator.next_phase, hw, hf, hfw]

/-- Witness for C9: concrete oscillators that differ only in the slots the
claim declares irrelevant — different pitch envelopes and warps for `amp_at`,
different amplitude envelopes for `next_phase` — produce equal results. -/
theorem capability_noninterference_witness :
    (Oscillator.new PlainWave.mk (FlatAmp.mk 1) (ConstFreq.mk 2) (TickWarp.mk 1)).amp_at
        0.25 0.5 =
      (Oscillator.new PlainWave.mk (FlatAmp.mk 1) (ConstFreq.mk 3) (TickWarp.mk 5)).amp_at
        0.25 0.5 ∧
    (Oscillator.new PlainWave.mk (FlatAmp.mk 1) (ConstFreq.mk 2) (TickWarp.mk 1)).next_phase
        0 0.5 1 44100 0 =
      (Oscillator.new PlainWave.mk (FlatAmp.mk 7) (ConstFreq.mk 2) (TickWarp.mk 1)).next_phase
        0 0.5 1 44100 0 :=
  ⟨(capability_noninterference
      (Oscillator.new PlainWave.mk (FlatAmp.mk 1) (ConstFreq.mk 2) (TickWarp.mk 1))
      (Oscillator.new PlainWave.mk (FlatAmp.mk 1) (ConstFreq.mk 3) (TickWarp.mk 5))
      0.25 0.5 1 44100 0).1 rfl rfl,
    (capability_noninterference
      (Oscillator.new PlainWave.mk (FlatAmp.mk 1) (ConstFreq.mk 2) (TickWarp.mk 1))
      (Oscillator.new PlainWave.mk (FlatAmp.mk 7) (ConstFreq.mk 2) (TickWarp.mk 1))
      0 0.5 1 44100 0).2 rfl rfl rfl⟩

/-- Claim C10: builder algebra — applying the same builder twice keeps only
the last value, and applications of two distinct builders commute, for each
of the three builders and each pair among them. -/
theorem builder_algebra (osc : Oscillator W A F FW)
    (w w1 : WNew) (w2 : W2) (a a1 : ANew) (a2 : A2) (f f1 : FNew) (f2 : F2) :
    ((osc.with_waveform w1).with_waveform w2 = osc.with_waveform w2) ∧
    ((osc.with_amplitude a1).with_amplitude a2 = osc.with_amplitude a2) ∧
    ((osc.with_frequency f1).with_frequency f2 = osc.with_frequency f2) ∧
    ((osc.with_waveform w).with_amplitude a = (osc.with_amplitude a).with_waveform w) ∧
    ((osc.with_waveform w).with_frequency f = (osc.with_frequency f).with_waveform w) ∧
    ((osc.with_amplitude a).with_frequency f = (osc.with_frequency f).with_amplitude a) :=
  ⟨rfl, rfl, rfl, rfl, rfl, rfl⟩

end

end Synth
